import Mathlib

/-!
Verification of the Metal-Pong kernel core against its specification.

The Rust sources (`src/kernel/src/allocator.rs`, `src/kernel/src/screen.rs`,
`src/kernel/src/main.rs`) are shallowly embedded below.  Machine integers
(`usize`, `isize`) are modelled as `Nat`/`Int` with explicit reduction
modulo `2^64`; arithmetic follows Rust release-profile semantics, where
`+`, `-`, `*` on `usize`/`isize` wrap (two's complement) instead of
aborting.  Fallible operations (slice indexing, `copy_from_slice`,
explicit `panic`) are modelled by an explicit result type carrying the
state at the moment of the fault.
-/

namespace MetalPong

/-- `2^64`, the modulus of `usize`/`isize` arithmetic on x86_64. -/
def U64 : Nat := 2 ^ 64

/-- Wrapping `usize` addition (`a + b` in Rust release mode). -/
def wadd (a b : Nat) : Nat := (a + b) % U64

/-- Wrapping `usize` subtraction (`a - b` in Rust release mode),
for operands already reduced below `2^64`. -/
def wsub (a b : Nat) : Nat := (a + (U64 - b % U64)) % U64

/-- Wrapping `usize` multiplication (`a * b` in Rust release mode). -/
def wmul (a b : Nat) : Nat := (a * b) % U64

/-- `usize::checked_mul`: `some` of the product when it fits in 64 bits,
`none` on overflow. -/
def checkedMul (a b : Nat) : Option Nat := if a * b < U64 then some (a * b) else none

/-- Bitwise complement `!a` on a `u64`/`usize` value. -/
def usizeNot (a : Nat) : Nat := (U64 - 1) - a % U64

/-- Reduce an integer into the `isize` range `[-2^63, 2^63)`
(two's-complement wrap-around). -/
def wrapI (v : Int) : Int := ((v + 2 ^ 63) % (2 ^ 64 : Int)) - 2 ^ 63

/-- Wrapping `isize` negation: `-v`, except that `isize::MIN` negates to
itself in release mode. -/
def wneg (v : Int) : Int := wrapI (-v)

/-- Wrapping `isize::abs`: the absolute value, except that
`isize::MIN.abs()` wraps back to `isize::MIN` in release mode. -/
def wabs (v : Int) : Int := wrapI (Int.natAbs v)

/-- `(a as isize + v) as usize` for a `usize` `a` and `isize` `v` with
wrapping addition: plain addition modulo `2^64` in two's complement. -/
def wAddInt (a : Nat) (v : Int) : Nat := (((a : Int) + v) % (2 ^ 64 : Int)).toNat

theorem wadd_eq (a b : Nat) (h : a + b < U64) : wadd a b = a + b := by
  unfold wadd; exact Nat.mod_eq_of_lt h

theorem wsub_eq (a b : Nat) (ha : a < U64) (hb : b ≤ a) : wsub a b = a - b := by
  unfold wsub
  have hbU : b % U64 = b := Nat.mod_eq_of_lt (lt_of_le_of_lt hb ha)
  rw [hbU]
  have h1 : a + (U64 - b) = (a - b) + U64 := by
    have : b ≤ U64 := le_of_lt (lt_of_le_of_lt hb ha)
    omega
  rw [h1, Nat.add_mod_right]
  exact Nat.mod_eq_of_lt (by omega)

theorem wAddInt_eq (a : Nat) (v : Int) (h0 : 0 ≤ (a : Int) + v)
    (h1 : (a : Int) + v < 2 ^ 64) : (wAddInt a v : Int) = (a : Int) + v := by
  unfold wAddInt
  rw [Int.emod_eq_of_lt h0 h1]
  exact Int.toNat_of_nonneg h0

/-! ## Framebuffer surface (`src/kernel/src/screen.rs`) -/

/-- `bootloader_api::info::PixelFormat`: the two supported channel
orders plus the unsupported ones (`U8`, `Unknown`). -/
inductive PixelFormat
  | Rgb
  | Bgr
  | U8
  | Unknown
deriving DecidableEq

/-- `bootloader_api::info::FrameBufferInfo`, the display metadata
consulted by the drawing primitives. -/
structure FrameBufferInfo where
  width : Nat
  height : Nat
  pixel_format : PixelFormat
  bytes_per_pixel : Nat
  stride : Nat
deriving DecidableEq

/-- `screen.rs` `ScreenWriter`: the framebuffer byte slice, its metadata
and the text cursor. -/
structure ScreenWriter where
  framebuffer : List Nat
  info : FrameBufferInfo
  x_pos : Nat
  y_pos : Nat
deriving DecidableEq

/-- Outcome of a pixel-writing primitive: a normal return with the new
state, or an abort (Rust panic) carrying the state at the fault. -/
inductive PixResult
  | ok (s : ScreenWriter)
  | panicked (s : ScreenWriter)
deriving DecidableEq

/-- Splice `bytes` into `fb` starting at index `off`
(the effect of `fb[off..off+bytes.len()].copy_from_slice(bytes)`). -/
def writeBytes (fb : List Nat) (off : Nat) (bytes : List Nat) : List Nat :=
  fb.take off ++ bytes ++ fb.drop (off + bytes.length)

/-- `self.framebuffer[byte_offset..byte_offset+bpp].copy_from_slice(&color[..bpp])`
with Rust's fault conditions: range slicing panics when the (wrapped)
upper bound is below the lower bound or beyond the buffer length;
`&color[..bpp]` panics when `bpp` exceeds the color array length;
`copy_from_slice` panics on a length mismatch. -/
def sliceWrite (s : ScreenWriter) (byte_offset : Nat) (color : List Nat) : PixResult :=
  if byte_offset > wadd byte_offset s.info.bytes_per_pixel ∨
      wadd byte_offset s.info.bytes_per_pixel > s.framebuffer.length then .panicked s
  else if color.length < s.info.bytes_per_pixel then .panicked s
  else if wadd byte_offset s.info.bytes_per_pixel - byte_offset ≠ s.info.bytes_per_pixel
    then .panicked s
  else .ok { s with
    framebuffer := writeBytes s.framebuffer byte_offset
      (color.take s.info.bytes_per_pixel) }

/-- `ScreenWriter::draw_pixel` (screen.rs lines 128-158): bounds checks on
`x`/`y`, `checked_mul` guards on the offset arithmetic, a buffer-length
check using the (wrapping) addition `byte_offset + bytes_per_pixel`, a
fail-soft unsupported-format branch, then the slice write. -/
def draw_pixel (s : ScreenWriter) (x y r g b : Nat) : PixResult :=
  if x ≥ s.info.width ∨ y ≥ s.info.height then .ok s
  else
    match checkedMul y s.info.stride with
    | none => .ok s
    | some off =>
      match checkedMul (wadd off x) s.info.bytes_per_pixel with
      | none => .ok s
      | some byte_offset =>
        if wadd byte_offset s.info.bytes_per_pixel > s.framebuffer.length then .ok s
        else
          match s.info.pixel_format with
          | .Rgb => sliceWrite s byte_offset [r, g, b, 0]
          | .Bgr => sliceWrite s byte_offset [b, g, r, 0]
          | _ => .ok s

/-- `ScreenWriter::write_pixel` (screen.rs lines 109-126): no bounds
checks, wrapping offset arithmetic, and a fail-fast unsupported-format
branch that first substitutes `PixelFormat::Rgb` into the metadata and
then panics.  The trailing `ptr::read_volatile` of
`framebuffer[byte_offset]` is itself an indexing operation that panics
out of bounds. -/
def write_pixel (s : ScreenWriter) (x y intensity : Nat) : PixResult :=
  match s.info.pixel_format with
  | .Rgb =>
    match sliceWrite s (wmul (wadd (wmul y s.info.stride) x) s.info.bytes_per_pixel)
        [intensity / 4, intensity, intensity / 2, 0] with
    | .ok s' =>
      if wmul (wadd (wmul y s.info.stride) x) s.info.bytes_per_pixel <
          s'.framebuffer.length then .ok s'
      else .panicked s'
    | .panicked s' => .panicked s'
  | .Bgr =>
    match sliceWrite s (wmul (wadd (wmul y s.info.stride) x) s.info.bytes_per_pixel)
        [intensity / 2, intensity, intensity / 4, 0] with
    | .ok s' =>
      if wmul (wadd (wmul y s.info.stride) x) s.info.bytes_per_pixel <
          s'.framebuffer.length then .ok s'
      else .panicked s'
    | .panicked s' => .panicked s'
  | _ => .panicked { s with info := { s.info with pixel_format := .Rgb } }

/-! ## Heap arena (`src/kernel/src/allocator.rs`) -/

/-- The bump allocator's mutable state: `HEAP_START` and `OFFSET`. -/
structure AllocState where
  heapStart : Nat
  offset : Nat
deriving DecidableEq

/-- `allocator.rs` `HEAP_SIZE`: 100 KiB. -/
def HEAP_SIZE : Nat := 100 * 1024

/-- `DummyAllocator::alloc` (allocator.rs lines 16-32), with wrapping
`usize` arithmetic: align the cursor up via
`(HEAP_START + OFFSET + align - 1) & !(align - 1)`, fail with a null
pointer (0) when `alloc_end` exceeds `HEAP_START + HEAP_SIZE`, otherwise
advance `OFFSET` and return the aligned start. -/
def alloc (st : AllocState) (size align : Nat) : Nat × AllocState :=
  if wadd (Nat.land (wsub (wadd (wadd st.heapStart st.offset) align) 1)
      (usizeNot (wsub align 1))) size > wadd st.heapStart HEAP_SIZE
  then (0, st)
  else
    (Nat.land (wsub (wadd (wadd st.heapStart st.offset) align) 1)
        (usizeNot (wsub align 1)),
      { st with
        offset := wsub (wadd (Nat.land (wsub (wadd (wadd st.heapStart st.offset) align) 1)
          (usizeNot (wsub align 1))) size) st.heapStart })

/-- Run a list of `(size, align)` requests through `alloc`, collecting
`(returned address, size, align)` for each request together with the
final allocator state. -/
def allocSeq (st : AllocState) : List (Nat × Nat) → List (Nat × Nat × Nat) × AllocState
  | [] => ([], st)
  | (size, align) :: rest =>
    (((alloc st size align).1, size, align) ::
        (allocSeq (alloc st size align).2 rest).1,
      (allocSeq (alloc st size align).2 rest).2)

/-- `a` rounded up to the next multiple of `align` (exact arithmetic);
matches the source's mask trick when nothing wraps. -/
def alignUp (a align : Nat) : Nat := (a + align - 1) - (a + align - 1) % align

/-! ## Game state machine (`src/kernel/src/main.rs`) -/

def PADDLE_WIDTH : Nat := 15
def PADDLE_HEIGHT : Nat := 100
def BALL_SIZE : Nat := 12
def PADDLE_SPEED : Nat := 50
def PLAYER1_PADDLE_X : Nat := 30
def WINNING_SCORE : Nat := 5
def PADDLE_BUFFER : Nat := 8

/-- `GameState` from main.rs. -/
inductive GameState
  | startScreen
  | playing
  | gameOver
deriving DecidableEq

/-- The process-wide mutable game variables of main.rs, gathered into one
state record: screen dimensions, paddle positions, ball position and
velocity, scores and the current `GameState`. -/
structure Game where
  screenW : Nat
  screenH : Nat
  p2X : Nat
  p1Y : Nat
  p2Y : Nat
  ballX : Nat
  ballY : Nat
  velX : Int
  velY : Int
  score1 : Nat
  score2 : Nat
  state : GameState
deriving DecidableEq

/-- The keyboard events the kernel distinguishes: space, `w`, `s`, the
two arrow keys, and everything else (ignored). -/
inductive KeyEvent
  | space
  | wKey
  | sKey
  | arrowUp
  | arrowDown
  | otherKey
deriving DecidableEq

/-- `reset_ball` (main.rs lines 193-201): re-center the ball and set each
velocity component to `-10` when it is currently positive, else `10`. -/
def reset_ball (g : Game) : Game :=
  { g with
    ballX := g.screenW / 2
    ballY := g.screenH / 2
    velX := if g.velX > 0 then -10 else 10
    velY := if g.velY > 0 then -10 else 10 }

/-- `init_game` (main.rs lines 166-191): re-center the ball, re-center
both paddles, zero both scores, set velocity to `(10, 10)` and enter
`Playing`. -/
def init_game (g : Game) : Game :=
  { g with
    ballX := g.screenW / 2
    ballY := g.screenH / 2
    p1Y := wsub (g.screenH / 2) (PADDLE_HEIGHT / 2)
    p2Y := wsub (g.screenH / 2) (PADDLE_HEIGHT / 2)
    score1 := 0
    score2 := 0
    velX := 10
    velY := 10
    state := .playing }

/-- Ball movement in the `Playing` tick (main.rs lines 216-217):
`BALL_X = (BALL_X as isize + BALL_VEL_X) as usize`, and likewise for
`BALL_Y` — wrapping two's-complement addition. -/
def moveBall (g : Game) : Game :=
  { g with ballX := wAddInt g.ballX g.velX, ballY := wAddInt g.ballY g.velY }

/-- Top/bottom wall collision (main.rs lines 223-225). -/
def wallBounce (g : Game) : Game :=
  if g.ballY ≤ 0 ∨ wadd g.ballY BALL_SIZE ≥ g.screenH then
    { g with velY := wneg g.velY }
  else g

/-- Player-1 (left) paddle collision (main.rs lines 228-232): inside the
tolerance-widened window, force `BALL_VEL_X` to `BALL_VEL_X.abs()`. -/
def paddleLeft (g : Game) : Game :=
  if g.ballX ≤ PLAYER1_PADDLE_X + PADDLE_WIDTH + PADDLE_BUFFER ∧
      wadd g.ballY BALL_SIZE ≥ wsub g.p1Y PADDLE_BUFFER ∧
      g.ballY ≤ wadd (wadd g.p1Y PADDLE_HEIGHT) PADDLE_BUFFER then
    { g with velX := wabs g.velX }
  else g

/-- Player-2 (right) paddle collision (main.rs lines 235-239): inside the
tolerance-widened window, force `BALL_VEL_X` to `-BALL_VEL_X.abs()`. -/
def paddleRight (g : Game) : Game :=
  if wadd g.ballX BALL_SIZE ≥ wsub g.p2X PADDLE_BUFFER ∧
      wadd g.ballY BALL_SIZE ≥ wsub g.p2Y PADDLE_BUFFER ∧
      g.ballY ≤ wadd (wadd g.p2Y PADDLE_HEIGHT) PADDLE_BUFFER then
    { g with velX := wneg (wabs g.velX) }
  else g

/-- The movement/collision portion of the `Playing` tick, in source
order: move, wall bounce, left paddle, right paddle. -/
def physics (g : Game) : Game := paddleRight (paddleLeft (wallBounce (moveBall g)))

/-- Scoring (main.rs lines 242-256): at `BALL_X <= PADDLE_WIDTH` player 2
scores, else at `BALL_X >= SCREEN_WIDTH` player 1 scores; reaching
`WINNING_SCORE` enters `GameOver`, otherwise the ball is reset. -/
def scorePhase (g : Game) : Game :=
  if g.ballX ≤ PADDLE_WIDTH then
    let s2 := wadd g.score2 1
    let g' := { g with score2 := s2 }
    if s2 ≥ WINNING_SCORE then { g' with state := .gameOver } else reset_ball g'
  else if g.ballX ≥ g.screenW then
    let s1 := wadd g.score1 1
    let g' := { g with score1 := s1 }
    if s1 ≥ WINNING_SCORE then { g' with state := .gameOver } else reset_ball g'
  else g

/-- `tick` (main.rs lines 204-270), restricted to its effect on the game
state (drawing calls touch only the framebuffer): `StartScreen` draws,
`Playing` runs physics then scoring, `GameOver` zeroes the velocity. -/
def tick (g : Game) : Game :=
  match g.state with
  | .startScreen => g
  | .playing => scorePhase (physics g)
  | .gameOver => { g with velX := 0, velY := 0 }

/-- `key` (main.rs lines 272-333): space starts/restarts from
`StartScreen`/`GameOver`; in `Playing`, `w`/`s` move paddle 1 and the
arrow keys move paddle 2 by `PADDLE_SPEED`, guarded against leaving the
screen. -/
def key (g : Game) (k : KeyEvent) : Game :=
  match g.state with
  | .startScreen =>
    match k with
    | .space => init_game g
    | _ => g
  | .playing =>
    match k with
    | .wKey =>
      if g.p1Y > PADDLE_SPEED then { g with p1Y := g.p1Y - PADDLE_SPEED } else g
    | .sKey =>
      if wadd (wadd g.p1Y PADDLE_HEIGHT) PADDLE_SPEED < g.screenH then
        { g with p1Y := wadd g.p1Y PADDLE_SPEED }
      else g
    | .arrowUp =>
      if g.p2Y > PADDLE_SPEED then { g with p2Y := g.p2Y - PADDLE_SPEED } else g
    | .arrowDown =>
      if wadd (wadd g.p2Y PADDLE_HEIGHT) PADDLE_SPEED < g.screenH then
        { g with p2Y := wadd g.p2Y PADDLE_SPEED }
      else g
    | _ => g
  | .gameOver =>
    match k with
    | .space => init_game g
    | _ => g

/-! ## Concrete states used by counterexamples and witnesses -/

/-- A 1280x720 `Playing` state at score (4,0) whose ball
(at x=1275, velocity (10,10)) exits the right boundary on the next tick. -/
def c3g : Game := ⟨1280, 720, 1235, 310, 310, 1275, 100, 10, 10, 4, 0, .playing⟩

/-- A concrete `GameOver` state. -/
def c3o : Game := ⟨1280, 720, 1235, 310, 310, 640, 360, 10, 10, 5, 0, .gameOver⟩

/-- A 1280x1050 `Playing` state with the ball at y=5 moving up by 10:
the position update underflows `usize`. -/
def c4g : Game := ⟨1280, 1050, 1235, 475, 475, 640, 5, 10, -10, 0, 0, .playing⟩

/-- `Playing` state whose ball crosses the left scoring boundary this tick. -/
def c5gL : Game := ⟨1280, 720, 1235, 600, 600, 20, 400, -10, 10, 1, 1, .playing⟩

/-- `Playing` state whose ball crosses the right scoring boundary this tick. -/
def c5gR : Game := ⟨1280, 720, 1235, 600, 600, 1275, 400, 10, 10, 1, 1, .playing⟩

/-- `Playing` state whose ball stays strictly between the scoring boundaries. -/
def c5gM : Game := ⟨1280, 720, 1235, 600, 600, 640, 400, 10, 10, 1, 1, .playing⟩

/-- A `GameOver` state with nonzero scores. -/
def c5gO : Game := ⟨1280, 720, 1235, 600, 600, 640, 400, 10, 10, 1, 1, .gameOver⟩

/-- `Playing` state with a leftward ball inside the left paddle's
tolerance-widened collision window after the move. -/
def c6a : Game := ⟨1280, 720, 1235, 300, 300, 50, 320, -10, 10, 0, 0, .playing⟩

/-- `Playing` state with a rightward ball inside the right paddle's
tolerance-widened collision window after the move. -/
def c6b : Game := ⟨1280, 720, 1235, 300, 300, 1210, 320, 10, 10, 0, 0, .playing⟩

/-- `Playing` state at score (2,1) in which player 2 scores a
non-winning point this tick. -/
def c7g : Game := ⟨1280, 720, 1235, 300, 300, 20, 400, -10, -10, 2, 1, .playing⟩

/-- `Playing` state with both paddles at the top clamp boundary. -/
def c9a : Game := ⟨1280, 720, 1235, 30, 40, 640, 400, 10, 10, 0, 0, .playing⟩

/-- `Playing` state with both paddles at the bottom clamp boundary. -/
def c9b : Game := ⟨1280, 720, 1235, 600, 610, 640, 400, 10, 10, 0, 0, .playing⟩

/-- Surface metadata contrived so that `byte_offset + bytes_per_pixel`
wraps around `2^64` while both `checked_mul` guards succeed:
stride `2^62 - 2`, 4 bytes per pixel, a 2x2 advertised geometry over a
100-byte buffer. -/
def c1cex : ScreenWriter :=
  { framebuffer := List.replicate 100 0
    info := { width := 2, height := 2, pixel_format := .Rgb, bytes_per_pixel := 4
              stride := 4611686018427387902 }
    x_pos := 0
    y_pos := 0 }

/-- A well-formed 4x4 RGB surface (stride 4, 4 bytes per pixel, 64-byte
buffer). -/
def c1ok : ScreenWriter :=
  { framebuffer := List.replicate 64 0
    info := { width := 4, height := 4, pixel_format := .Rgb, bytes_per_pixel := 4, stride := 4 }
    x_pos := 0
    y_pos := 0 }

/-- A surface whose pixel format is the unsupported `U8`. -/
def c10s : ScreenWriter :=
  { framebuffer := [0, 0, 0, 0]
    info := { width := 1, height := 1, pixel_format := .U8, bytes_per_pixel := 4, stride := 1 }
    x_pos := 0
    y_pos := 0 }

/-! ## Arithmetic helper lemmas -/

theorem wrapI_eq (v : Int) (h1 : -(2 ^ 63) ≤ v) (h2 : v < 2 ^ 63) : wrapI v = v := by
  unfold wrapI
  have h : (v + 2 ^ 63) % (2 ^ 64 : Int) = v + 2 ^ 63 :=
    Int.emod_eq_of_lt (by omega) (by omega)
  rw [h]
  omega

theorem wneg_eq (v : Int) (h1 : -(2 ^ 63) < v) (h2 : v ≤ 2 ^ 63) : wneg v = -v := by
  unfold wneg
  exact wrapI_eq _ (by omega) (by omega)

theorem wabs_eq_neg (v : Int) (h1 : -(2 ^ 63) < v) (h2 : v < 0) : wabs v = -v := by
  unfold wabs
  have hna : (v.natAbs : Int) = -v := by omega
  rw [hna]
  exact wrapI_eq _ (by omega) (by omega)

theorem wabs_eq_pos (v : Int) (h1 : 0 ≤ v) (h2 : v < 2 ^ 63) : wabs v = v := by
  unfold wabs
  have hna : (v.natAbs : Int) = v := by omega
  rw [hna]
  exact wrapI_eq _ (by omega) (by omega)

/-! ## Game phase lemmas -/

theorem tick_playing (g : Game) (h : g.state = .playing) :
    tick g = scorePhase (physics g) := by
  unfold tick
  rw [h]

theorem tick_startScreen (g : Game) (h : g.state = .startScreen) : tick g = g := by
  unfold tick
  rw [h]

theorem tick_gameOver (g : Game) (h : g.state = .gameOver) :
    tick g = { g with velX := 0, velY := 0 } := by
  unfold tick
  rw [h]

theorem key_gameOver_space (g : Game) (h : g.state = .gameOver) :
    key g .space = init_game g := by
  unfold key
  rw [h]

theorem key_playing (g : Game) (k : KeyEvent) (h : g.state = .playing) :
    key g k =
      match k with
      | .wKey =>
        if g.p1Y > PADDLE_SPEED then { g with p1Y := g.p1Y - PADDLE_SPEED } else g
      | .sKey =>
        if wadd (wadd g.p1Y PADDLE_HEIGHT) PADDLE_SPEED < g.screenH then
          { g with p1Y := wadd g.p1Y PADDLE_SPEED }
        else g
      | .arrowUp =>
        if g.p2Y > PADDLE_SPEED then { g with p2Y := g.p2Y - PADDLE_SPEED } else g
      | .arrowDown =>
        if wadd (wadd g.p2Y PADDLE_HEIGHT) PADDLE_SPEED < g.screenH then
          { g with p2Y := wadd g.p2Y PADDLE_SPEED }
        else g
      | _ => g := by
  unfold key
  rw [h]

theorem wallBounce_cases (g : Game) :
    wallBounce g = { g with velY := wneg g.velY } ∨ wallBounce g = g := by
  unfold wallBounce
  split
  · exact Or.inl rfl
  · exact Or.inr rfl

theorem paddleLeft_cases (g : Game) :
    paddleLeft g = { g with velX := wabs g.velX } ∨ paddleLeft g = g := by
  unfold paddleLeft
  split
  · exact Or.inl rfl
  · exact Or.inr rfl

theorem paddleRight_cases (g : Game) :
    paddleRight g = { g with velX := wneg (wabs g.velX) } ∨ paddleRight g = g := by
  unfold paddleRight
  split
  · exact Or.inl rfl
  · exact Or.inr rfl

theorem paddleLeft_pos (g : Game)
    (h : g.ballX ≤ PLAYER1_PADDLE_X + PADDLE_WIDTH + PADDLE_BUFFER ∧
        wadd g.ballY BALL_SIZE ≥ wsub g.p1Y PADDLE_BUFFER ∧
        g.ballY ≤ wadd (wadd g.p1Y PADDLE_HEIGHT) PADDLE_BUFFER) :
    paddleLeft g = { g with velX := wabs g.velX } := by
  unfold paddleLeft
  rw [if_pos h]

theorem paddleLeft_neg (g : Game)
    (h : ¬(g.ballX ≤ PLAYER1_PADDLE_X + PADDLE_WIDTH + PADDLE_BUFFER ∧
        wadd g.ballY BALL_SIZE ≥ wsub g.p1Y PADDLE_BUFFER ∧
        g.ballY ≤ wadd (wadd g.p1Y PADDLE_HEIGHT) PADDLE_BUFFER)) :
    paddleLeft g = g := by
  unfold paddleLeft
  rw [if_neg h]

theorem paddleRight_pos (g : Game)
    (h : wadd g.ballX BALL_SIZE ≥ wsub g.p2X PADDLE_BUFFER ∧
        wadd g.ballY BALL_SIZE ≥ wsub g.p2Y PADDLE_BUFFER ∧
        g.ballY ≤ wadd (wadd g.p2Y PADDLE_HEIGHT) PADDLE_BUFFER) :
    paddleRight g = { g with velX := wneg (wabs g.velX) } := by
  unfold paddleRight
  rw [if_pos h]

theorem paddleRight_neg (g : Game)
    (h : ¬(wadd g.ballX BALL_SIZE ≥ wsub g.p2X PADDLE_BUFFER ∧
        wadd g.ballY BALL_SIZE ≥ wsub g.p2Y PADDLE_BUFFER ∧
        g.ballY ≤ wadd (wadd g.p2Y PADDLE_HEIGHT) PADDLE_BUFFER)) :
    paddleRight g = g := by
  unfold paddleRight
  rw [if_neg h]

theorem moveBall_ballX (g : Game) : (moveBall g).ballX = wAddInt g.ballX g.velX := rfl

theorem moveBall_ballY (g : Game) : (moveBall g).ballY = wAddInt g.ballY g.velY := rfl

theorem moveBall_p1Y (g : Game) : (moveBall g).p1Y = g.p1Y := rfl

theorem moveBall_p2X (g : Game) : (moveBall g).p2X = g.p2X := rfl

theorem moveBall_p2Y (g : Game) : (moveBall g).p2Y = g.p2Y := rfl

theorem moveBall_velX (g : Game) : (moveBall g).velX = g.velX := rfl

theorem wallBounce_atoms (y : Game) :
    (wallBounce y).ballX = y.ballX ∧ (wallBounce y).ballY = y.ballY ∧
    (wallBounce y).p1Y = y.p1Y ∧ (wallBounce y).p2X = y.p2X ∧
    (wallBounce y).p2Y = y.p2Y ∧ (wallBounce y).velX = y.velX := by
  rcases wallBounce_cases y with hw | hw <;> rw [hw] <;>
    exact ⟨rfl, rfl, rfl, rfl, rfl, rfl⟩

theorem LR_velX_left (y : Game)
    (hcl : y.ballX ≤ PLAYER1_PADDLE_X + PADDLE_WIDTH + PADDLE_BUFFER ∧
      wadd y.ballY BALL_SIZE ≥ wsub y.p1Y PADDLE_BUFFER ∧
      y.ballY ≤ wadd (wadd y.p1Y PADDLE_HEIGHT) PADDLE_BUFFER)
    (hnr : ¬ wadd y.ballX BALL_SIZE ≥ wsub y.p2X PADDLE_BUFFER) :
    (paddleRight (paddleLeft y)).velX = wabs y.velX := by
  rw [paddleLeft_pos]
  · rw [paddleRight_neg]
    intro hcon
    exact hnr hcon.1
  · exact hcl

theorem LR_velX_right (y : Game)
    (hcr : wadd y.ballX BALL_SIZE ≥ wsub y.p2X PADDLE_BUFFER ∧
      wadd y.ballY BALL_SIZE ≥ wsub y.p2Y PADDLE_BUFFER ∧
      y.ballY ≤ wadd (wadd y.p2Y PADDLE_HEIGHT) PADDLE_BUFFER)
    (ha : wabs y.velX = y.velX) :
    (paddleRight (paddleLeft y)).velX = wneg y.velX := by
  rcases paddleLeft_cases y with hl | hl <;> rw [hl]
  · rw [paddleRight_pos]
    · show wneg (wabs (wabs y.velX)) = wneg y.velX
      rw [ha, ha]
    · exact hcr
  · rw [paddleRight_pos]
    · show wneg (wabs y.velX) = wneg y.velX
      rw [ha]
    · exact hcr

theorem physics_fields (g : Game) :
    (physics g).ballX = wAddInt g.ballX g.velX ∧
    (physics g).ballY = wAddInt g.ballY g.velY ∧
    (physics g).score1 = g.score1 ∧
    (physics g).score2 = g.score2 ∧
    (physics g).screenW = g.screenW ∧
    (physics g).screenH = g.screenH ∧
    (physics g).state = g.state ∧
    (physics g).p1Y = g.p1Y ∧
    (physics g).p2Y = g.p2Y ∧
    (physics g).p2X = g.p2X := by
  unfold physics
  rcases wallBounce_cases (moveBall g) with hw | hw <;> rw [hw] <;>
    rcases paddleLeft_cases _ with hl | hl <;> rw [hl] <;>
      rcases paddleRight_cases _ with hr | hr <;> rw [hr] <;>
        exact ⟨rfl, rfl, rfl, rfl, rfl, rfl, rfl, rfl, rfl, rfl⟩

theorem scorePhase_mid (g : Game) (h1 : ¬ g.ballX ≤ PADDLE_WIDTH)
    (h2 : ¬ g.ballX ≥ g.screenW) : scorePhase g = g := by
  unfold scorePhase
  rw [if_neg h1, if_neg h2]

theorem scorePhase_left (g : Game) (h : g.ballX ≤ PADDLE_WIDTH) :
    (scorePhase g).score2 = wadd g.score2 1 ∧
    (scorePhase g).score1 = g.score1 ∧
    (wadd g.score2 1 ≥ WINNING_SCORE → (scorePhase g).state = .gameOver) ∧
    (wadd g.score2 1 < WINNING_SCORE →
      (scorePhase g).state = g.state ∧
      (scorePhase g).velX = (if g.velX > 0 then (-10 : Int) else 10) ∧
      (scorePhase g).velY = (if g.velY > 0 then (-10 : Int) else 10) ∧
      (scorePhase g).ballX = g.screenW / 2 ∧
      (scorePhase g).ballY = g.screenH / 2) := by
  unfold scorePhase reset_ball
  rw [if_pos h]
  by_cases h5 : wadd g.score2 1 ≥ WINNING_SCORE
  · rw [if_pos h5]
    exact ⟨rfl, rfl, fun _ => rfl, fun hlt => absurd h5 (by omega)⟩
  · rw [if_neg h5]
    exact ⟨rfl, rfl, fun hge => absurd hge h5, fun _ => ⟨rfl, rfl, rfl, rfl, rfl⟩⟩

theorem scorePhase_right (g : Game) (h1 : ¬ g.ballX ≤ PADDLE_WIDTH)
    (h2 : g.ballX ≥ g.screenW) :
    (scorePhase g).score1 = wadd g.score1 1 ∧
    (scorePhase g).score2 = g.score2 ∧
    (wadd g.score1 1 ≥ WINNING_SCORE → (scorePhase g).state = .gameOver) ∧
    (wadd g.score1 1 < WINNING_SCORE →
      (scorePhase g).state = g.state ∧
      (scorePhase g).velX = (if g.velX > 0 then (-10 : Int) else 10) ∧
      (scorePhase g).velY = (if g.velY > 0 then (-10 : Int) else 10) ∧
      (scorePhase g).ballX = g.screenW / 2 ∧
      (scorePhase g).ballY = g.screenH / 2) := by
  unfold scorePhase reset_ball
  rw [if_neg h1, if_pos h2]
  by_cases h5 : wadd g.score1 1 ≥ WINNING_SCORE
  · rw [if_pos h5]
    exact ⟨rfl, rfl, fun _ => rfl, fun hlt => absurd h5 (by omega)⟩
  · rw [if_neg h5]
    exact ⟨rfl, rfl, fun hge => absurd hge h5, fun _ => ⟨rfl, rfl, rfl, rfl, rfl⟩⟩

theorem scorePhase_scores (g : Game) :
    ((scorePhase g).score1 = g.score1 ∨ (scorePhase g).score1 = wadd g.score1 1) ∧
    ((scorePhase g).score2 = g.score2 ∨ (scorePhase g).score2 = wadd g.score2 1) := by
  by_cases h1 : g.ballX ≤ PADDLE_WIDTH
  · obtain ⟨hs2, hs1, _⟩ := scorePhase_left g h1
    exact ⟨Or.inl hs1, Or.inr hs2⟩
  · by_cases h2 : g.ballX ≥ g.screenW
    · obtain ⟨hs1, hs2, _⟩ := scorePhase_right g h1 h2
      exact ⟨Or.inr hs1, Or.inl hs2⟩
    · rw [scorePhase_mid g h1 h2]
      exact ⟨Or.inl rfl, Or.inl rfl⟩

/-! ## Claims C3, C4, C5 -/

/-- Claim C3, counterexample to the claim as stated: from `Playing` at
score (4,0), the tick in which the ball exits the right boundary sets the
score to 5 and the state to `GameOver`, but does NOT freeze the velocity
to (0,0) — the velocity is still (10,10) after that tick.  The freeze
only happens on the next tick, which runs in the `GameOver` state. -/
theorem claim3_counterexample :
    (tick c3g).state = .gameOver ∧ (tick c3g).score1 = 5 ∧ (tick c3g).velX = 10 ∧
    ¬((tick c3g).velX = 0 ∧ (tick c3g).velY = 0) := by
  decide

/-- Claim C3 (amended): a `Playing` tick at score (4,0) in which the
ball exits the right boundary sets player 1's score to 5, leaves player
2's score at 0 and transitions to `GameOver`; that scoring tick is not
guaranteed to freeze the velocity to (0,0) (see
`claim3_counterexample`); instead, every tick run in the `GameOver`
state sets the velocity to (0,0) and preserves the state and both
scores, so the velocity is frozen from the next tick onward; a space
key event in `GameOver` resets both scores to (0,0) and the state to
`Playing`. -/
theorem claim3 :
    (∀ g : Game, g.state = .playing → g.score1 = 4 → g.score2 = 0 →
      g.screenW > PADDLE_WIDTH → wAddInt g.ballX g.velX ≥ g.screenW →
      (tick g).state = .gameOver ∧ (tick g).score1 = 5 ∧ (tick g).score2 = 0) ∧
    (∀ g : Game, g.state = .gameOver →
      (tick g).velX = 0 ∧ (tick g).velY = 0 ∧ (tick g).state = .gameOver ∧
      (tick g).score1 = g.score1 ∧ (tick g).score2 = g.score2) ∧
    (∀ g : Game, g.state = .gameOver →
      (key g .space).score1 = 0 ∧ (key g .space).score2 = 0 ∧
      (key g .space).state = .playing) := by
  refine ⟨?_, ?_, ?_⟩
  · intro g hst h1 h2 hW hbx
    rw [tick_playing g hst]
    obtain ⟨hpx, hpy, hps1, hps2, hpw, hph, hpst, _, _, _⟩ := physics_fields g
    have hnot : ¬ (physics g).ballX ≤ PADDLE_WIDTH := by rw [hpx]; omega
    have hge : (physics g).ballX ≥ (physics g).screenW := by rw [hpx, hpw]; exact hbx
    obtain ⟨hs1, hs2, hwin, _⟩ := scorePhase_right (physics g) hnot hge
    refine ⟨?_, ?_, ?_⟩
    · exact hwin (by rw [hps1, h1]; decide)
    · rw [hs1, hps1, h1]; decide
    · rw [hs2, hps2, h2]
  · intro g h
    rw [tick_gameOver g h]
    exact ⟨rfl, rfl, h, rfl, rfl⟩
  · intro g h
    rw [key_gameOver_space g h]
    exact ⟨rfl, rfl, rfl⟩

/-- Witness for claim C3: the amended claim applied to the concrete
states `c3g` (scoring tick) and `c3o` (freeze and restart). -/
theorem claim3_witness :
    (c3g.state = .playing ∧ c3g.score1 = 4 ∧ c3g.score2 = 0 ∧
      c3g.screenW > PADDLE_WIDTH ∧ wAddInt c3g.ballX c3g.velX ≥ c3g.screenW) ∧
    ((tick c3g).state = .gameOver ∧ (tick c3g).score1 = 5 ∧ (tick c3g).score2 = 0) ∧
    ((tick c3o).velX = 0 ∧ (tick c3o).velY = 0 ∧ (tick c3o).state = .gameOver ∧
      (tick c3o).score1 = c3o.score1 ∧ (tick c3o).score2 = c3o.score2) ∧
    ((key c3o .space).score1 = 0 ∧ (key c3o .space).score2 = 0 ∧
      (key c3o .space).state = .playing) :=
  ⟨⟨rfl, rfl, rfl, by decide, by decide⟩,
    claim3.1 c3g rfl rfl rfl (by decide) (by decide),
    claim3.2.1 c3o rfl,
    claim3.2.2 c3o rfl⟩

/-- Claim C4 (code bug evidence): in `Playing`, the ball position update
`BALL_X = (BALL_X as isize + BALL_VEL_X) as usize` is NOT clamped: from
`BALL_Y = 5` with `BALL_VEL_Y = -10`, one tick leaves the ball at
`2^64 - 5 = 18446744073709551611`, a wrapped very large unsigned value,
contradicting the spec's requirement that this arithmetic be clamped or
saturated rather than allowed to wrap. -/
theorem claim4_evidence :
    c4g.ballY = 5 ∧ c4g.velY = -10 ∧ c4g.state = .playing ∧
    (tick c4g).ballY = 18446744073709551611 ∧ 2 ^ 63 < (tick c4g).ballY := by
  decide

/-- Claim C5: in a `Playing` tick, a ball whose updated position crosses
the left scoring boundary (`BALL_X <= PADDLE_WIDTH`) increments player
2's score by one and leaves player 1's score unchanged; crossing the
right boundary (`BALL_X >= SCREEN_WIDTH`) increments player 1's score and
leaves player 2's; a tick whose updated position lies strictly between
the boundaries changes neither score, and ticks in the other two states
change neither score. -/
theorem claim5 :
    (∀ g : Game, g.state = .playing → g.score2 + 1 < U64 →
      wAddInt g.ballX g.velX ≤ PADDLE_WIDTH →
      (tick g).score2 = g.score2 + 1 ∧ (tick g).score1 = g.score1) ∧
    (∀ g : Game, g.state = .playing → g.score1 + 1 < U64 →
      g.screenW > PADDLE_WIDTH → wAddInt g.ballX g.velX ≥ g.screenW →
      (tick g).score1 = g.score1 + 1 ∧ (tick g).score2 = g.score2) ∧
    (∀ g : Game, g.state = .playing →
      PADDLE_WIDTH < wAddInt g.ballX g.velX → wAddInt g.ballX g.velX < g.screenW →
      (tick g).score1 = g.score1 ∧ (tick g).score2 = g.score2) ∧
    (∀ g : Game, g.state ≠ .playing →
      (tick g).score1 = g.score1 ∧ (tick g).score2 = g.score2) := by
  refine ⟨?_, ?_, ?_, ?_⟩
  · intro g hst hU hbx
    rw [tick_playing g hst]
    obtain ⟨hpx, _, hps1, hps2, _, _, _, _, _, _⟩ := physics_fields g
    have hle : (physics g).ballX ≤ PADDLE_WIDTH := by rw [hpx]; exact hbx
    obtain ⟨hs2, hs1, _⟩ := scorePhase_left (physics g) hle
    constructor
    · rw [hs2, hps2]; exact wadd_eq _ _ hU
    · rw [hs1, hps1]
  · intro g hst hU hW hbx
    rw [tick_playing g hst]
    obtain ⟨hpx, _, hps1, hps2, hpw, _, _, _, _, _⟩ := physics_fields g
    have hnot : ¬ (physics g).ballX ≤ PADDLE_WIDTH := by rw [hpx]; omega
    have hge : (physics g).ballX ≥ (physics g).screenW := by rw [hpx, hpw]; exact hbx
    obtain ⟨hs1, hs2, _⟩ := scorePhase_right (physics g) hnot hge
    constructor
    · rw [hs1, hps1]; exact wadd_eq _ _ hU
    · rw [hs2, hps2]
  · intro g hst h1 h2
    rw [tick_playing g hst]
    obtain ⟨hpx, _, hps1, hps2, hpw, _, _, _, _, _⟩ := physics_fields g
    have hmid : scorePhase (physics g) = physics g :=
      scorePhase_mid _ (by rw [hpx]; omega) (by rw [hpx, hpw]; omega)
    rw [hmid, hps1, hps2]
    exact ⟨rfl, rfl⟩
  · intro g h
    cases hst : g.state with
    | startScreen => rw [tick_startScreen g hst]; exact ⟨rfl, rfl⟩
    | playing => exact absurd hst h
    | gameOver => rw [tick_gameOver g hst]; exact ⟨rfl, rfl⟩

/-- Witness for claim C5: each conjunct applied to a concrete state. -/
theorem claim5_witness :
    (c5gL.state = .playing ∧ c5gL.score2 + 1 < U64 ∧
      wAddInt c5gL.ballX c5gL.velX ≤ PADDLE_WIDTH ∧
      (tick c5gL).score2 = c5gL.score2 + 1 ∧ (tick c5gL).score1 = c5gL.score1) ∧
    ((tick c5gR).score1 = c5gR.score1 + 1 ∧ (tick c5gR).score2 = c5gR.score2) ∧
    ((tick c5gM).score1 = c5gM.score1 ∧ (tick c5gM).score2 = c5gM.score2) ∧
    ((tick c5gO).score1 = c5gO.score1 ∧ (tick c5gO).score2 = c5gO.score2) :=
  ⟨⟨rfl, by decide, by decide,
      (claim5.1 c5gL rfl (by decide) (by decide)).1,
      (claim5.1 c5gL rfl (by decide) (by decide)).2⟩,
    claim5.2.1 c5gR rfl (by decide) (by decide) (by decide),
    claim5.2.2.1 c5gM rfl (by decide) (by decide),
    claim5.2.2.2 c5gO (by decide)⟩

/-! ## Claim C6 -/

/-- Claim C6: a leftward-moving ball whose updated position lies in the
left paddle's tolerance-widened window (and outside the right paddle's
window and the scoring bands) leaves the tick with a rightward horizontal
velocity of the same magnitude; symmetrically, a rightward-moving ball in
the right paddle's window leaves the tick with a leftward horizontal
velocity of the same magnitude. -/
theorem claim6 :
    (∀ g : Game, g.state = .playing →
      -(2 ^ 63) < g.velX → g.velX < 0 →
      PADDLE_WIDTH < wAddInt g.ballX g.velX →
      wAddInt g.ballX g.velX ≤ PLAYER1_PADDLE_X + PADDLE_WIDTH + PADDLE_BUFFER →
      wadd (wAddInt g.ballY g.velY) BALL_SIZE ≥ wsub g.p1Y PADDLE_BUFFER →
      wAddInt g.ballY g.velY ≤ wadd (wadd g.p1Y PADDLE_HEIGHT) PADDLE_BUFFER →
      wadd (wAddInt g.ballX g.velX) BALL_SIZE < wsub g.p2X PADDLE_BUFFER →
      wAddInt g.ballX g.velX < g.screenW →
      (tick g).velX = -g.velX) ∧
    (∀ g : Game, g.state = .playing →
      0 < g.velX → g.velX < 2 ^ 63 →
      PADDLE_WIDTH < wAddInt g.ballX g.velX →
      wAddInt g.ballX g.velX < g.screenW →
      wadd (wAddInt g.ballX g.velX) BALL_SIZE ≥ wsub g.p2X PADDLE_BUFFER →
      wadd (wAddInt g.ballY g.velY) BALL_SIZE ≥ wsub g.p2Y PADDLE_BUFFER →
      wAddInt g.ballY g.velY ≤ wadd (wadd g.p2Y PADDLE_HEIGHT) PADDLE_BUFFER →
      (tick g).velX = -g.velX) := by
  constructor
  · intro g hst hvlo hvhi hb15 hb53 hv1 hv2 hnr hbW
    have hA := wallBounce_atoms (moveBall g)
    have c1 : (wallBounce (moveBall g)).ballX ≤
        PLAYER1_PADDLE_X + PADDLE_WIDTH + PADDLE_BUFFER := by
      rw [hA.1, moveBall_ballX]; exact hb53
    have c2 : wadd (wallBounce (moveBall g)).ballY BALL_SIZE ≥
        wsub (wallBounce (moveBall g)).p1Y PADDLE_BUFFER := by
      rw [hA.2.1, hA.2.2.1, moveBall_ballY, moveBall_p1Y]; exact hv1
    have c3 : (wallBounce (moveBall g)).ballY ≤
        wadd (wadd (wallBounce (moveBall g)).p1Y PADDLE_HEIGHT) PADDLE_BUFFER := by
      rw [hA.2.1, hA.2.2.1, moveBall_ballY, moveBall_p1Y]; exact hv2
    have c4 : ¬ wadd (wallBounce (moveBall g)).ballX BALL_SIZE ≥
        wsub (wallBounce (moveBall g)).p2X PADDLE_BUFFER := by
      rw [hA.1, hA.2.2.2.1, moveBall_ballX, moveBall_p2X]
      omega
    have hphys : (physics g).velX = wabs g.velX := by
      unfold physics
      rw [LR_velX_left _ ⟨c1, c2, c3⟩ c4, hA.2.2.2.2.2, moveBall_velX]
    obtain ⟨hpx, _, _, _, hpw, _, _, _, _, _⟩ := physics_fields g
    have hmid : scorePhase (physics g) = physics g :=
      scorePhase_mid _ (by rw [hpx]; omega) (by rw [hpx, hpw]; omega)
    rw [tick_playing g hst, hmid, hphys, wabs_eq_neg g.velX hvlo hvhi]
  · intro g hst hvpos hvlt hb15 hbW hr1 hr2 hr3
    have hlo : -(2 ^ 63 : Int) < g.velX := by
      have h63 : (2 : Int) ^ 63 = 9223372036854775808 := by norm_num
      omega
    have ha : wabs g.velX = g.velX := wabs_eq_pos _ (le_of_lt hvpos) hvlt
    have hA := wallBounce_atoms (moveBall g)
    have cr1 : wadd (wallBounce (moveBall g)).ballX BALL_SIZE ≥
        wsub (wallBounce (moveBall g)).p2X PADDLE_BUFFER := by
      rw [hA.1, hA.2.2.2.1, moveBall_ballX, moveBall_p2X]; exact hr1
    have cr2 : wadd (wallBounce (moveBall g)).ballY BALL_SIZE ≥
        wsub (wallBounce (moveBall g)).p2Y PADDLE_BUFFER := by
      rw [hA.2.1, hA.2.2.2.2.1, moveBall_ballY, moveBall_p2Y]; exact hr2
    have cr3 : (wallBounce (moveBall g)).ballY ≤
        wadd (wadd (wallBounce (moveBall g)).p2Y PADDLE_HEIGHT) PADDLE_BUFFER := by
      rw [hA.2.1, hA.2.2.2.2.1, moveBall_ballY, moveBall_p2Y]; exact hr3
    have haW : wabs (wallBounce (moveBall g)).velX = (wallBounce (moveBall g)).velX := by
      rw [hA.2.2.2.2.2, moveBall_velX]; exact ha
    have hphys : (physics g).velX = wneg g.velX := by
      unfold physics
      rw [LR_velX_right _ ⟨cr1, cr2, cr3⟩ haW, hA.2.2.2.2.2, moveBall_velX]
    obtain ⟨hpx, _, _, _, hpw, _, _, _, _, _⟩ := physics_fields g
    have hmid : scorePhase (physics g) = physics g :=
      scorePhase_mid _ (by rw [hpx]; omega) (by rw [hpx, hpw]; omega)
    rw [tick_playing g hst, hmid, hphys, wneg_eq g.velX hlo (le_of_lt hvlt)]

/-- Witness for claim C6: both directions applied to the concrete states
`c6a` (leftward ball, left paddle) and `c6b` (rightward ball, right
paddle). -/
theorem claim6_witness :
    (c6a.state = .playing ∧ c6a.velX = -10 ∧
      wAddInt c6a.ballX c6a.velX = 40 ∧ (tick c6a).velX = 10) ∧
    (c6b.state = .playing ∧ c6b.velX = 10 ∧
      wAddInt c6b.ballX c6b.velX = 1220 ∧ (tick c6b).velX = -10) :=
  ⟨⟨rfl, rfl, by decide,
      claim6.1 c6a rfl (by decide) (by decide) (by decide) (by decide) (by decide)
        (by decide) (by decide) (by decide)⟩,
    ⟨rfl, rfl, by decide,
      claim6.2 c6b rfl (by decide) (by decide) (by decide) (by decide) (by decide)
        (by decide) (by decide)⟩⟩

/-! ## Claim C7 -/

theorem wallBounce_velX (y : Game) : (wallBounce y).velX = y.velX := by
  rcases wallBounce_cases y with hw | hw <;> rw [hw]

theorem paddleLeft_velY (y : Game) : (paddleLeft y).velY = y.velY := by
  rcases paddleLeft_cases y with hl | hl <;> rw [hl]

theorem paddleRight_velY (y : Game) : (paddleRight y).velY = y.velY := by
  rcases paddleRight_cases y with hr | hr <;> rw [hr]

theorem wallBounce_velY_pm (y : Game) (h : y.velY = 10 ∨ y.velY = -10) :
    (wallBounce y).velY = 10 ∨ (wallBounce y).velY = -10 := by
  rcases wallBounce_cases y with hw | hw <;> rw [hw]
  · show wneg y.velY = 10 ∨ wneg y.velY = -10
    rcases h with h | h <;> rw [h]
    · right; decide
    · left; decide
  · exact h

theorem paddleLeft_velX_pm (y : Game) (h : y.velX = 10 ∨ y.velX = -10) :
    (paddleLeft y).velX = 10 ∨ (paddleLeft y).velX = -10 := by
  rcases paddleLeft_cases y with hl | hl <;> rw [hl]
  · left
    show wabs y.velX = 10
    rcases h with h | h <;> rw [h] <;> decide
  · exact h

theorem paddleRight_velX_pm (y : Game) (h : y.velX = 10 ∨ y.velX = -10) :
    (paddleRight y).velX = 10 ∨ (paddleRight y).velX = -10 := by
  rcases paddleRight_cases y with hr | hr <;> rw [hr]
  · right
    show wneg (wabs y.velX) = -10
    rcases h with h | h <;> rw [h] <;> decide
  · exact h

theorem physics_velX_pm (g : Game) (h : g.velX = 10 ∨ g.velX = -10) :
    (physics g).velX = 10 ∨ (physics g).velX = -10 := by
  unfold physics
  have h0 : (wallBounce (moveBall g)).velX = 10 ∨ (wallBounce (moveBall g)).velX = -10 := by
    rw [wallBounce_velX (moveBall g)]
    exact h
  exact paddleRight_velX_pm _ (paddleLeft_velX_pm _ h0)

theorem physics_velY_pm (g : Game) (h : g.velY = 10 ∨ g.velY = -10) :
    (physics g).velY = 10 ∨ (physics g).velY = -10 := by
  unfold physics
  have h0 : (moveBall g).velY = 10 ∨ (moveBall g).velY = -10 := h
  have h1 := wallBounce_velY_pm (moveBall g) h0
  rw [paddleRight_velY, paddleLeft_velY]
  exact h1

/-- Claim C7: on a non-winning score in a `Playing` tick, the ball is
re-centered and each velocity component ends as the negation of its value
at the moment of scoring (the value produced by the movement/collision
phase): sign flipped, magnitude preserved.  The in-game velocity
components are always `10` or `-10`, which is taken as a hypothesis. -/
theorem claim7 (g : Game) (hst : g.state = .playing)
    (hvx : g.velX = 10 ∨ g.velX = -10) (hvy : g.velY = 10 ∨ g.velY = -10)
    (hsc : ((physics g).ballX ≤ PADDLE_WIDTH ∧
        wadd (physics g).score2 1 < WINNING_SCORE) ∨
      (¬ (physics g).ballX ≤ PADDLE_WIDTH ∧ (physics g).ballX ≥ (physics g).screenW ∧
        wadd (physics g).score1 1 < WINNING_SCORE)) :
    (tick g).velX = -(physics g).velX ∧ (tick g).velY = -(physics g).velY ∧
    (tick g).ballX = g.screenW / 2 ∧ (tick g).ballY = g.screenH / 2 := by
  rw [tick_playing g hst]
  obtain ⟨_, _, _, _, hpw, hph, _, _, _, _⟩ := physics_fields g
  have hpmx := physics_velX_pm g hvx
  have hpmy := physics_velY_pm g hvy
  have hres : (scorePhase (physics g)).velX =
        (if (physics g).velX > 0 then (-10 : Int) else 10) ∧
      (scorePhase (physics g)).velY =
        (if (physics g).velY > 0 then (-10 : Int) else 10) ∧
      (scorePhase (physics g)).ballX = (physics g).screenW / 2 ∧
      (scorePhase (physics g)).ballY = (physics g).screenH / 2 := by
    rcases hsc with ⟨hle, hlt⟩ | ⟨hnle, hge, hlt⟩
    · obtain ⟨_, _, _, hr⟩ := scorePhase_left (physics g) hle
      obtain ⟨_, a, b, c, d⟩ := hr hlt
      exact ⟨a, b, c, d⟩
    · obtain ⟨_, _, _, hr⟩ := scorePhase_right (physics g) hnle hge
      obtain ⟨_, a, b, c, d⟩ := hr hlt
      exact ⟨a, b, c, d⟩
  obtain ⟨ha, hb, hc, hd⟩ := hres
  refine ⟨?_, ?_, ?_, ?_⟩
  · rw [ha]; rcases hpmx with h | h <;> rw [h] <;> decide
  · rw [hb]; rcases hpmy with h | h <;> rw [h] <;> decide
  · rw [hc, hpw]
  · rw [hd, hph]

/-- Witness for claim C7: the theorem applied to the concrete state
`c7g`, in which player 2 scores a non-winning point; the velocity at the
moment of scoring is `(10, -10)` (the left paddle flipped the incoming
`-10`), and the post-reset velocity is its negation `(-10, 10)`. -/
theorem claim7_witness :
    (c7g.state = .playing ∧ (physics c7g).velX = 10 ∧ (physics c7g).velY = -10 ∧
      (physics c7g).ballX ≤ PADDLE_WIDTH ∧ wadd (physics c7g).score2 1 < WINNING_SCORE) ∧
    ((tick c7g).velX = -(physics c7g).velX ∧ (tick c7g).velY = -(physics c7g).velY ∧
      (tick c7g).ballX = c7g.screenW / 2 ∧ (tick c7g).ballY = c7g.screenH / 2) :=
  ⟨⟨rfl, by decide, by decide, by decide, by decide⟩,
    claim7 c7g rfl (Or.inr rfl) (Or.inr rfl) (Or.inl ⟨by decide, by decide⟩)⟩

/-! ## Claim C9 -/

/-- Claim C9: in `Playing`, a player-1 up key (`w`) with
`paddle_y <= PADDLE_SPEED` leaves the paddle position unchanged; a down
key (`s`) with `paddle_y + PADDLE_HEIGHT + PADDLE_SPEED >= screen_height`
leaves it unchanged; and the same clamping holds for player 2's arrow
keys. -/
theorem claim9 :
    (∀ g : Game, g.state = .playing → g.p1Y ≤ PADDLE_SPEED →
      (key g .wKey).p1Y = g.p1Y) ∧
    (∀ g : Game, g.state = .playing →
      g.p1Y + PADDLE_HEIGHT + PADDLE_SPEED < U64 →
      g.p1Y + PADDLE_HEIGHT + PADDLE_SPEED ≥ g.screenH →
      (key g .sKey).p1Y = g.p1Y) ∧
    (∀ g : Game, g.state = .playing → g.p2Y ≤ PADDLE_SPEED →
      (key g .arrowUp).p2Y = g.p2Y) ∧
    (∀ g : Game, g.state = .playing →
      g.p2Y + PADDLE_HEIGHT + PADDLE_SPEED < U64 →
      g.p2Y + PADDLE_HEIGHT + PADDLE_SPEED ≥ g.screenH →
      (key g .arrowDown).p2Y = g.p2Y) := by
  refine ⟨?_, ?_, ?_, ?_⟩
  · intro g hst hle
    rw [key_playing g .wKey hst]
    show (if g.p1Y > PADDLE_SPEED then { g with p1Y := g.p1Y - PADDLE_SPEED } else g).p1Y
        = g.p1Y
    rw [if_neg (by omega)]
  · intro g hst hU hge
    rw [key_playing g .sKey hst]
    show (if wadd (wadd g.p1Y PADDLE_HEIGHT) PADDLE_SPEED < g.screenH then
        { g with p1Y := wadd g.p1Y PADDLE_SPEED } else g).p1Y = g.p1Y
    have h1 : wadd g.p1Y PADDLE_HEIGHT = g.p1Y + PADDLE_HEIGHT := wadd_eq _ _ (by omega)
    have h2 : wadd (wadd g.p1Y PADDLE_HEIGHT) PADDLE_SPEED =
        g.p1Y + PADDLE_HEIGHT + PADDLE_SPEED := by rw [h1]; exact wadd_eq _ _ (by omega)
    rw [if_neg (by rw [h2]; omega)]
  · intro g hst hle
    rw [key_playing g .arrowUp hst]
    show (if g.p2Y > PADDLE_SPEED then { g with p2Y := g.p2Y - PADDLE_SPEED } else g).p2Y
        = g.p2Y
    rw [if_neg (by omega)]
  · intro g hst hU hge
    rw [key_playing g .arrowDown hst]
    show (if wadd (wadd g.p2Y PADDLE_HEIGHT) PADDLE_SPEED < g.screenH then
        { g with p2Y := wadd g.p2Y PADDLE_SPEED } else g).p2Y = g.p2Y
    have h1 : wadd g.p2Y PADDLE_HEIGHT = g.p2Y + PADDLE_HEIGHT := wadd_eq _ _ (by omega)
    have h2 : wadd (wadd g.p2Y PADDLE_HEIGHT) PADDLE_SPEED =
        g.p2Y + PADDLE_HEIGHT + PADDLE_SPEED := by rw [h1]; exact wadd_eq _ _ (by omega)
    rw [if_neg (by rw [h2]; omega)]

/-- Witness for claim C9: all four clamped cases at the concrete states
`c9a` (paddles at the top boundary) and `c9b` (paddles at the bottom
boundary). -/
theorem claim9_witness :
    (c9a.p1Y ≤ PADDLE_SPEED ∧ (key c9a .wKey).p1Y = c9a.p1Y) ∧
    (c9b.p1Y + PADDLE_HEIGHT + PADDLE_SPEED ≥ c9b.screenH ∧
      (key c9b .sKey).p1Y = c9b.p1Y) ∧
    (c9a.p2Y ≤ PADDLE_SPEED ∧ (key c9a .arrowUp).p2Y = c9a.p2Y) ∧
    (c9b.p2Y + PADDLE_HEIGHT + PADDLE_SPEED ≥ c9b.screenH ∧
      (key c9b .arrowDown).p2Y = c9b.p2Y) :=
  ⟨⟨by decide, claim9.1 c9a rfl (by decide)⟩,
    ⟨by decide, claim9.2.1 c9b rfl (by decide) (by decide)⟩,
    ⟨by decide, claim9.2.2.1 c9a rfl (by decide)⟩,
    ⟨by decide, claim9.2.2.2 c9b rfl (by decide) (by decide)⟩⟩

/-! ## Claim C10 -/

/-- Claim C10: on an unsupported pixel format (neither RGB nor BGR),
`draw_pixel` returns with the surface unchanged (fail-soft), while
`write_pixel` first substitutes `PixelFormat::Rgb` into the surface
metadata and then panics (fail-fast), leaving the framebuffer bytes
untouched. -/
theorem claim10 (s : ScreenWriter) (x y r g b intensity : Nat)
    (h1 : s.info.pixel_format ≠ .Rgb) (h2 : s.info.pixel_format ≠ .Bgr) :
    draw_pixel s x y r g b = .ok s ∧
    write_pixel s x y intensity =
      .panicked { s with info := { s.info with pixel_format := .Rgb } } := by
  constructor
  · unfold draw_pixel
    split
    · rfl
    · split
      · rfl
      · split
        · rfl
        · split
          · rfl
          · split
            · rename_i heq
              exact absurd heq h1
            · rename_i heq
              exact absurd heq h2
            · rfl
  · unfold write_pixel
    split
    · rename_i heq
      exact absurd heq h1
    · rename_i heq
      exact absurd heq h2
    · rfl

/-- Witness for claim C10: the theorem applied to the concrete `U8`
surface `c10s`. -/
theorem claim10_witness :
    (c10s.info.pixel_format ≠ PixelFormat.Rgb ∧
      c10s.info.pixel_format ≠ PixelFormat.Bgr) ∧
    (draw_pixel c10s 0 0 1 2 3 = .ok c10s ∧
      write_pixel c10s 0 0 7 =
        .panicked { c10s with info := { c10s.info with pixel_format := .Rgb } }) :=
  ⟨⟨by decide, by decide⟩, claim10 c10s 0 0 1 2 3 7 (by decide) (by decide)⟩

/-! ## Claim C1 -/

/-- Claim C1, counterexample to the claim as stated: with metadata whose
offset arithmetic wraps past the `checked_mul` guards (stride `2^62 - 2`,
4 bytes per pixel), the in-range coordinate (1,1) drives
`byte_offset + bytes_per_pixel` to wrap to 0, the buffer-length guard
passes, and the slice expression
`framebuffer[byte_offset..byte_offset+bpp]` panics because its wrapped
upper bound is below its lower bound — so `draw_pixel` does NOT "never
panic" over all inputs. -/
theorem claim1_counterexample :
    draw_pixel c1cex 1 1 255 255 255 = .panicked c1cex ∧
    c1cex.info.width = 2 ∧ c1cex.info.height = 2 := by
  decide

theorem checkedMul_eq_some (a b c : Nat) (h : checkedMul a b = some c) :
    c = a * b ∧ a * b < U64 := by
  unfold checkedMul at h
  by_cases hlt : a * b < U64
  · rw [if_pos hlt] at h
    injection h with h'
    exact ⟨h'.symm, hlt⟩
  · rw [if_neg hlt] at h
    exact Option.noConfusion h

theorem checkedMul_eq_none (a b : Nat) (h : checkedMul a b = none) :
    ¬ a * b < U64 := by
  unfold checkedMul at h
  by_cases hlt : a * b < U64
  · rw [if_pos hlt] at h
    exact Option.noConfusion h
  · exact hlt

theorem writeBytes_length (fb : List Nat) (off : Nat) (bytes : List Nat)
    (h : off + bytes.length ≤ fb.length) :
    (writeBytes fb off bytes).length = fb.length := by
  unfold writeBytes
  simp only [List.length_append, List.length_take, List.length_drop]
  omega

theorem sliceWrite_ok (s : ScreenWriter) (bo : Nat) (color : List Nat)
    (hU : bo + s.info.bytes_per_pixel < U64)
    (hlen : bo + s.info.bytes_per_pixel ≤ s.framebuffer.length)
    (hc : s.info.bytes_per_pixel ≤ color.length) :
    ∃ fb', sliceWrite s bo color = .ok { s with framebuffer := fb' } ∧
      fb'.length = s.framebuffer.length := by
  simp only [sliceWrite]
  have he : wadd bo s.info.bytes_per_pixel = bo + s.info.bytes_per_pixel :=
    wadd_eq _ _ hU
  rw [he, if_neg (by omega), if_neg (by omega), if_neg (by omega)]
  refine ⟨_, rfl, ?_⟩
  have hlt : (color.take s.info.bytes_per_pixel).length = s.info.bytes_per_pixel := by
    rw [List.length_take]
    omega
  exact writeBytes_length _ _ _ (by rw [hlt]; omega)

/-- Claim C1 (amended): for any surface whose metadata cannot overflow
the offset arithmetic (`bytes_per_pixel <= 4`, `width <= stride`,
`height * stride * bytes_per_pixel < 2^64`), `draw_pixel` never panics,
never writes outside the framebuffer (the byte length and the metadata
are preserved), and leaves the surface unchanged on out-of-bounds
coordinates.  Without that proviso the claim is refuted by
`claim1_counterexample`. -/
theorem claim1 (s : ScreenWriter) (x y r g b : Nat)
    (hbpp : s.info.bytes_per_pixel ≤ 4)
    (hws : s.info.width ≤ s.info.stride)
    (hov : s.info.height * s.info.stride * s.info.bytes_per_pixel < U64) :
    ∃ s', draw_pixel s x y r g b = .ok s' ∧
      s'.info = s.info ∧
      s'.framebuffer.length = s.framebuffer.length ∧
      ((x ≥ s.info.width ∨ y ≥ s.info.height) → s' = s) := by
  have hU64 : (0 : Nat) < U64 := by decide
  unfold draw_pixel
  split
  · exact ⟨s, rfl, rfl, rfl, fun _ => rfl⟩
  case isFalse hnot =>
    have hxw : x < s.info.width := by omega
    have hyh : y < s.info.height := by omega
    have hno : ¬ (x ≥ s.info.width ∨ y ≥ s.info.height) := by omega
    by_cases hp0 : s.info.bytes_per_pixel = 0
    · rw [hp0]
      split
      · exact ⟨s, rfl, rfl, rfl, fun hc => absurd hc hno⟩
      · split
        · rename_i heq2
          exfalso
          have h := checkedMul_eq_none _ _ heq2
          rw [Nat.mul_zero] at h
          omega
        · rename_i off heq bo heq2
          obtain ⟨hbo, _⟩ := checkedMul_eq_some _ _ _ heq2
          rw [Nat.mul_zero] at hbo
          subst hbo
          have hg : wadd 0 0 = 0 := rfl
          rw [hg, if_neg (by omega)]
          split
          · obtain ⟨fb', hsw, hlen'⟩ := sliceWrite_ok s 0 [r, g, b, 0]
              (by omega) (by omega) (by omega)
            exact ⟨_, hsw, rfl, hlen', fun hc => absurd hc hno⟩
          · obtain ⟨fb', hsw, hlen'⟩ := sliceWrite_ok s 0 [b, g, r, 0]
              (by omega) (by omega) (by omega)
            exact ⟨_, hsw, rfl, hlen', fun hc => absurd hc hno⟩
          · exact ⟨s, rfl, rfl, rfl, fun hc => absurd hc hno⟩
    · have hp1 : 1 ≤ s.info.bytes_per_pixel := by omega
      have hstpos : 1 ≤ s.info.stride := by omega
      have hys : y * s.info.stride + x < s.info.height * s.info.stride := by
        have h1 : y ≤ s.info.height - 1 := by omega
        have h2 : y * s.info.stride ≤ (s.info.height - 1) * s.info.stride :=
          Nat.mul_le_mul_right _ h1
        have h3 : x < s.info.stride := by omega
        have h5 : s.info.height - 1 + 1 = s.info.height := by omega
        have h4 : (s.info.height - 1) * s.info.stride + s.info.stride =
            s.info.height * s.info.stride := by
          calc (s.info.height - 1) * s.info.stride + s.info.stride
              = (s.info.height - 1 + 1) * s.info.stride := by ring
            _ = s.info.height * s.info.stride := by rw [h5]
        omega
      have hhs : s.info.height * s.info.stride ≤
          s.info.height * s.info.stride * s.info.bytes_per_pixel := by
        calc s.info.height * s.info.stride
            = s.info.height * s.info.stride * 1 := by ring
          _ ≤ s.info.height * s.info.stride * s.info.bytes_per_pixel :=
            Nat.mul_le_mul_left _ hp1
      have hbound : (y * s.info.stride + x) * s.info.bytes_per_pixel +
          s.info.bytes_per_pixel ≤
          s.info.height * s.info.stride * s.info.bytes_per_pixel := by
        have h6 : y * s.info.stride + x + 1 ≤ s.info.height * s.info.stride := by
          omega
        have h7 := Nat.mul_le_mul_right s.info.bytes_per_pixel h6
        calc (y * s.info.stride + x) * s.info.bytes_per_pixel +
            s.info.bytes_per_pixel
            = (y * s.info.stride + x + 1) * s.info.bytes_per_pixel := by ring
          _ ≤ s.info.height * s.info.stride * s.info.bytes_per_pixel := h7
      have hprod : (y * s.info.stride + x) * s.info.bytes_per_pixel +
          s.info.bytes_per_pixel < U64 := by omega
      split
      · rename_i heq
        exfalso
        have h := checkedMul_eq_none _ _ heq
        have h8 : y * s.info.stride * s.info.bytes_per_pixel ≤
            (y * s.info.stride + x) * s.info.bytes_per_pixel :=
          Nat.mul_le_mul_right _ (by omega)
        have h9 : y * s.info.stride ≤ y * s.info.stride * s.info.bytes_per_pixel := by
          calc y * s.info.stride = y * s.info.stride * 1 := by ring
            _ ≤ y * s.info.stride * s.info.bytes_per_pixel :=
              Nat.mul_le_mul_left _ hp1
        omega
      · rename_i off heq
        obtain ⟨hoff, _⟩ := checkedMul_eq_some _ _ _ heq
        subst hoff
        have hwa : wadd (y * s.info.stride) x = y * s.info.stride + x :=
          wadd_eq _ _ (by omega)
        rw [hwa]
        split
        · rename_i heq2
          exfalso
          have h := checkedMul_eq_none _ _ heq2
          omega
        · rename_i bo heq2
          obtain ⟨hbo, _⟩ := checkedMul_eq_some _ _ _ heq2
          subst hbo
          have hwb : wadd ((y * s.info.stride + x) * s.info.bytes_per_pixel)
              s.info.bytes_per_pixel =
              (y * s.info.stride + x) * s.info.bytes_per_pixel +
                s.info.bytes_per_pixel :=
            wadd_eq _ _ (by omega)
          rw [hwb]
          split
          · exact ⟨s, rfl, rfl, rfl, fun hc => absurd hc hno⟩
          · rename_i hlen
            split
            · obtain ⟨fb', hsw, hlen'⟩ := sliceWrite_ok s
                ((y * s.info.stride + x) * s.info.bytes_per_pixel) [r, g, b, 0]
                (by omega) (by omega) (by simp; omega)
              exact ⟨_, hsw, rfl, hlen', fun hc => absurd hc hno⟩
            · obtain ⟨fb', hsw, hlen'⟩ := sliceWrite_ok s
                ((y * s.info.stride + x) * s.info.bytes_per_pixel) [b, g, r, 0]
                (by omega) (by omega) (by simp; omega)
              exact ⟨_, hsw, rfl, hlen', fun hc => absurd hc hno⟩
            · exact ⟨s, rfl, rfl, rfl, fun hc => absurd hc hno⟩

/-- Witness for claim C1: the amended theorem applied to the well-formed
4x4 surface `c1ok` at coordinate (1,1). -/
theorem claim1_witness :
    (c1ok.info.bytes_per_pixel ≤ 4 ∧ c1ok.info.width ≤ c1ok.info.stride ∧
      c1ok.info.height * c1ok.info.stride * c1ok.info.bytes_per_pixel < U64) ∧
    (∃ s', draw_pixel c1ok 1 1 9 8 7 = .ok s' ∧
      s'.info = c1ok.info ∧
      s'.framebuffer.length = c1ok.framebuffer.length ∧
      ((1 ≥ c1ok.info.width ∨ 1 ≥ c1ok.info.height) → s' = c1ok)) :=
  ⟨⟨by decide, by decide, by decide⟩,
    claim1 c1ok 1 1 9 8 7 (by decide) (by decide) (by decide)⟩

theorem land_highmask (v k : Nat) (hv : v < 2 ^ 64) (hk : k ≤ 64) :
    Nat.land v (2 ^ 64 - 2 ^ k) = 2 ^ k * (v / 2 ^ k) := by
  have h1 : (1 : Nat) ≤ 2 ^ k := Nat.one_le_two_pow
  have hlt : 2 ^ k - 1 < 2 ^ 64 :=
    lt_of_lt_of_le (by omega) (Nat.pow_le_pow_right (by omega) hk)
  have hmask : (2 : Nat) ^ 64 - 2 ^ k = 2 ^ 64 - ((2 ^ k - 1) + 1) := by omega
  apply Nat.eq_of_testBit_eq
  intro j
  show Nat.testBit (v &&& (2 ^ 64 - 2 ^ k)) j = Nat.testBit (2 ^ k * (v / 2 ^ k)) j
  rw [Nat.testBit_and, hmask, Nat.testBit_two_pow_sub_succ hlt,
    Nat.testBit_two_pow_sub_one, ← Nat.shiftRight_eq_div_pow,
    Nat.testBit_mul_pow_two, Nat.testBit_shiftRight]
  by_cases hj64 : j < 64
  · by_cases hjk : k ≤ j
    · have hkj : k + (j - k) = j := by omega
      rw [hkj]
      simp [hj64, hjk, Nat.not_lt_of_le hjk]
    · simp [hjk, Nat.lt_of_not_le hjk]
  · have hge : 2 ^ 64 ≤ 2 ^ j := Nat.pow_le_pow_right (by omega) (by omega)
    have hvj : Nat.testBit v j = false := Nat.testBit_lt_two_pow (by omega)
    have hkj : k ≤ j := by omega
    have hkj2 : k + (j - k) = j := by omega
    rw [hkj2]
    simp [hj64, hvj]

theorem alignUp_spec (a al : Nat) (h : 1 ≤ al) :
    a ≤ alignUp a al ∧ alignUp a al % al = 0 ∧ alignUp a al ≤ a + al - 1 := by
  unfold alignUp
  have hdm := Nat.div_add_mod (a + al - 1) al
  have hml : (a + al - 1) % al < al := Nat.mod_lt _ (by omega)
  refine ⟨by omega, ?_, by omega⟩
  have he : (a + al - 1) - (a + al - 1) % al = al * ((a + al - 1) / al) := by omega
  rw [he, Nat.mul_mod_right]

theorem alloc_exact (st : AllocState) (size align k : Nat)
    (hal : align = 2 ^ k) (hO : st.offset ≤ HEAP_SIZE)
    (hnw : st.heapStart + HEAP_SIZE + align + size < U64) :
    alloc st size align =
      if alignUp (st.heapStart + st.offset) align + size > st.heapStart + HEAP_SIZE
      then (0, st)
      else (alignUp (st.heapStart + st.offset) align,
        ⟨st.heapStart,
          alignUp (st.heapStart + st.offset) align + size - st.heapStart⟩) := by
  subst hal
  have hU : U64 = 2 ^ 64 := rfl
  have h2kpos : (1 : Nat) ≤ 2 ^ k := Nat.one_le_two_pow
  have hk64 : k ≤ 64 := by
    by_contra hcon
    have hge : 2 ^ 64 ≤ 2 ^ k := Nat.pow_le_pow_right (by omega) (by omega)
    omega
  have e1 : wadd st.heapStart st.offset = st.heapStart + st.offset :=
    wadd_eq _ _ (by omega)
  have e2 : wadd (st.heapStart + st.offset) (2 ^ k) =
      st.heapStart + st.offset + 2 ^ k := wadd_eq _ _ (by omega)
  have e3 : wsub (st.heapStart + st.offset + 2 ^ k) 1 =
      st.heapStart + st.offset + 2 ^ k - 1 := wsub_eq _ _ (by omega) (by omega)
  have e4 : wsub (2 ^ k) 1 = 2 ^ k - 1 := wsub_eq _ _ (by omega) (by omega)
  have e5 : usizeNot (2 ^ k - 1) = 2 ^ 64 - 2 ^ k := by
    unfold usizeNot
    have hm : (2 ^ k - 1) % U64 = 2 ^ k - 1 := Nat.mod_eq_of_lt (by omega)
    rw [hm]
    omega
  have e6 : Nat.land (st.heapStart + st.offset + 2 ^ k - 1) (2 ^ 64 - 2 ^ k) =
      2 ^ k * ((st.heapStart + st.offset + 2 ^ k - 1) / 2 ^ k) :=
    land_highmask _ _ (by omega) hk64
  have hdm := Nat.div_add_mod (st.heapStart + st.offset + 2 ^ k - 1) (2 ^ k)
  have hml : (st.heapStart + st.offset + 2 ^ k - 1) % 2 ^ k < 2 ^ k :=
    Nat.mod_lt _ (by omega)
  have hAU : alignUp (st.heapStart + st.offset) (2 ^ k) =
      2 ^ k * ((st.heapStart + st.offset + 2 ^ k - 1) / 2 ^ k) := by
    unfold alignUp
    omega
  obtain ⟨hSge, hSmod, hSle⟩ :=
    alignUp_spec (st.heapStart + st.offset) (2 ^ k) h2kpos
  have e7 : wadd st.heapStart HEAP_SIZE = st.heapStart + HEAP_SIZE :=
    wadd_eq _ _ (by omega)
  have e8 : wadd (alignUp (st.heapStart + st.offset) (2 ^ k)) size =
      alignUp (st.heapStart + st.offset) (2 ^ k) + size := wadd_eq _ _ (by omega)
  have e9 : wsub (alignUp (st.heapStart + st.offset) (2 ^ k) + size) st.heapStart =
      alignUp (st.heapStart + st.offset) (2 ^ k) + size - st.heapStart :=
    wsub_eq _ _ (by omega) (by omega)
  unfold alloc
  rw [e1, e2, e3, e4, e5, e6, ← hAU, e7, e8, e9]


theorem allocSeq_spec (reqs : List (Nat × Nat)) (st : AllocState)
    (hO : st.offset ≤ HEAP_SIZE)
    (hreqs : ∀ r ∈ reqs, (∃ k, r.2 = 2 ^ k) ∧
      st.heapStart + HEAP_SIZE + r.2 + r.1 < U64) :
    (allocSeq st reqs).2.heapStart = st.heapStart ∧
    st.offset ≤ (allocSeq st reqs).2.offset ∧
    (allocSeq st reqs).2.offset ≤ HEAP_SIZE ∧
    (∀ e ∈ (allocSeq st reqs).1, e.1 ≠ 0 →
      e.1 % e.2.2 = 0 ∧ st.heapStart + st.offset ≤ e.1 ∧
      e.1 + e.2.1 ≤ st.heapStart + (allocSeq st reqs).2.offset) ∧
    List.Pairwise (fun a b : Nat × Nat × Nat => a.1 ≠ 0 → b.1 ≠ 0 → a.1 + a.2.1 ≤ b.1)
      (allocSeq st reqs).1 := by
  induction reqs generalizing st with
  | nil =>
    refine ⟨rfl, Nat.le_refl _, hO, ?_, ?_⟩
    · intro e he
      exact absurd he (List.not_mem_nil e)
    · exact List.Pairwise.nil
  | cons req rest ih =>
    obtain ⟨size, align⟩ := req
    obtain ⟨⟨k, hk0⟩, hnw0⟩ := hreqs (size, align) (List.mem_cons_self _ _)
    have hk : align = 2 ^ k := hk0
    have hnw : st.heapStart + HEAP_SIZE + align + size < U64 := hnw0
    have hreqs' : ∀ r ∈ rest, (∃ k, r.2 = 2 ^ k) ∧
        st.heapStart + HEAP_SIZE + r.2 + r.1 < U64 :=
      fun r hr => hreqs r (List.mem_cons_of_mem _ hr)
    have hae := alloc_exact st size align k hk hO hnw
    have h1le : 1 ≤ align := hk ▸ Nat.one_le_two_pow
    obtain ⟨hge, hmod, _⟩ := alignUp_spec (st.heapStart + st.offset) align h1le
    simp only [allocSeq]
    by_cases hg : alignUp (st.heapStart + st.offset) align + size > st.heapStart + HEAP_SIZE
    · rw [if_pos hg] at hae
      have h1 : (alloc st size align).1 = 0 := by rw [hae]
      have h2 : (alloc st size align).2 = st := by rw [hae]
      rw [h1, h2]
      obtain ⟨ihH, ihMono, ihBound, ihEnt, ihPair⟩ := ih st hO hreqs'
      refine ⟨ihH, ihMono, ihBound, ?_, ?_⟩
      · intro e he h0e
        rcases List.mem_cons.mp he with heq | he'
        · subst heq
          exact absurd rfl h0e
        · exact ihEnt e he' h0e
      · refine List.pairwise_cons.mpr ⟨?_, ihPair⟩
        intro b _ ha0
        exact absurd rfl ha0
    · rw [if_neg hg] at hae
      have h1 : (alloc st size align).1 = alignUp (st.heapStart + st.offset) align := by
        rw [hae]
      have h2H : (alloc st size align).2.heapStart = st.heapStart := by rw [hae]
      have h2O : (alloc st size align).2.offset =
          alignUp (st.heapStart + st.offset) align + size - st.heapStart := by rw [hae]
      have hguard : alignUp (st.heapStart + st.offset) align + size ≤
          st.heapStart + HEAP_SIZE := by omega
      have hO' : (alloc st size align).2.offset ≤ HEAP_SIZE := by
        rw [h2O]; omega
      have hreqs2 : ∀ r ∈ rest, (∃ k, r.2 = 2 ^ k) ∧
          (alloc st size align).2.heapStart + HEAP_SIZE + r.2 + r.1 < U64 := by
        intro r hr
        obtain ⟨hk2, hnw2⟩ := hreqs' r hr
        exact ⟨hk2, by rw [h2H]; exact hnw2⟩
      obtain ⟨ihH, ihMono, ihBound, ihEnt, ihPair⟩ :=
        ih (alloc st size align).2 hO' hreqs2
      refine ⟨ihH.trans h2H, by omega, ihBound, ?_, ?_⟩
      · intro e he h0e
        rcases List.mem_cons.mp he with heq | he'
        · subst heq
          refine ⟨?_, ?_, ?_⟩
          · show (alloc st size align).1 % align = 0
            rw [h1]
            exact hmod
          · show st.heapStart + st.offset ≤ (alloc st size align).1
            rw [h1]
            exact hge
          · show (alloc st size align).1 + size ≤
              st.heapStart + (allocSeq (alloc st size align).2 rest).2.offset
            rw [h1]
            omega
        · obtain ⟨hm, hlo, hhi⟩ := ihEnt e he' h0e
          exact ⟨hm, by omega, by omega⟩
      · refine List.pairwise_cons.mpr ⟨?_, ihPair⟩
        intro b hb ha0 hb0
        obtain ⟨_, hlo, _⟩ := ihEnt b hb hb0
        show (alloc st size align).1 + size ≤ b.1
        rw [h1]
        omega

/-- C2 (corrected with a no-overflow proviso): starting from a freshly
initialised allocator, for every sequence of requests whose alignments are
powers of two and which each satisfy
`HEAP_START + HEAP_SIZE + align + size < 2 ^ 64`, every successful
(non-null) result of `alloc` is aligned to its request's alignment, its
range `[address, address + size)` lies within
`[HEAP_START, HEAP_START + HEAP_SIZE)`, and the ranges of distinct
successful allocations are pairwise disjoint.  Without the proviso the
wrapping `usize` arithmetic in `alloc_end = alloc_start + size` breaks the
containment part, see `claim2_counterexample`. -/
theorem claim2 (st0 : AllocState) (reqs : List (Nat × Nat))
    (h0 : st0.offset = 0)
    (hreqs : ∀ r ∈ reqs, (∃ k, r.2 = 2 ^ k) ∧
      st0.heapStart + HEAP_SIZE + r.2 + r.1 < U64) :
    (∀ e ∈ (allocSeq st0 reqs).1, e.1 ≠ 0 →
      e.1 % e.2.2 = 0 ∧
      st0.heapStart ≤ e.1 ∧ e.1 + e.2.1 ≤ st0.heapStart + HEAP_SIZE) ∧
    List.Pairwise
      (fun a b : Nat × Nat × Nat => a.1 ≠ 0 → b.1 ≠ 0 →
        a.1 + a.2.1 ≤ b.1 ∨ b.1 + b.2.1 ≤ a.1)
      (allocSeq st0 reqs).1 := by
  obtain ⟨hH, hMono, hBound, hEnt, hPair⟩ := allocSeq_spec reqs st0 (by omega) hreqs
  constructor
  · intro e he h0e
    obtain ⟨hm, hlo, hhi⟩ := hEnt e he h0e
    exact ⟨hm, by omega, by omega⟩
  · exact List.Pairwise.imp (fun h ha hb => Or.inl (h ha hb)) hPair

/-- C2, counterexample to the unamended claim: with `HEAP_START` equal to
`2 ^ 64 - 2 ^ 62` and a fresh allocator, a `Layout`-legal request of size
`2 ^ 62 + 4` with alignment `4` makes `alloc_end = alloc_start + size`
wrap around, so the guard passes and `alloc` returns a non-null address
whose range `[address, address + size)` escapes
`[HEAP_START, HEAP_START + HEAP_SIZE)`. -/
theorem claim2_counterexample :
    (alloc ⟨13835058055282163712, 0⟩ 4611686018427387908 4).1 ≠ 0 ∧
    ¬ ((alloc ⟨13835058055282163712, 0⟩ 4611686018427387908 4).1 +
        4611686018427387908 ≤ 13835058055282163712 + HEAP_SIZE) := by
  decide

theorem claim2_witness :
    (∀ e ∈ (allocSeq ⟨4096, 0⟩ [(8, 4), (5, 8)]).1, e.1 ≠ 0 →
      e.1 % e.2.2 = 0 ∧
      4096 ≤ e.1 ∧ e.1 + e.2.1 ≤ 4096 + HEAP_SIZE) ∧
    List.Pairwise
      (fun a b : Nat × Nat × Nat => a.1 ≠ 0 → b.1 ≠ 0 →
        a.1 + a.2.1 ≤ b.1 ∨ b.1 + b.2.1 ≤ a.1)
      (allocSeq ⟨4096, 0⟩ [(8, 4), (5, 8)]).1 :=
  claim2 ⟨4096, 0⟩ [(8, 4), (5, 8)] rfl (by
    intro r hr
    rcases List.mem_cons.mp hr with heq | hr2
    · subst heq
      exact ⟨⟨2, rfl⟩, by decide⟩
    · rcases List.mem_cons.mp hr2 with heq | hr3
      · subst heq
        exact ⟨⟨3, rfl⟩, by decide⟩
      · exact absurd hr3 (List.not_mem_nil r))

/-- C8 (corrected with a no-overflow proviso): provided
`HEAP_START + HEAP_SIZE + align + size < 2 ^ 64` and the alignment is a
power of two, a request whose aligned end would exceed
`HEAP_START + HEAP_SIZE` returns the null pointer `0` and leaves the
allocator state (in particular the `OFFSET` cursor) unchanged; `alloc`
is a total function, so no panic occurs.  Without the proviso an
over-capacity request can wrap and succeed, see
`claim8_counterexample`. -/
theorem claim8 (st : AllocState) (size align k : Nat)
    (hal : align = 2 ^ k) (hO : st.offset ≤ HEAP_SIZE)
    (hnw : st.heapStart + HEAP_SIZE + align + size < U64)
    (hex : alignUp (st.heapStart + st.offset) align + size >
      st.heapStart + HEAP_SIZE) :
    alloc st size align = (0, st) := by
  rw [alloc_exact st size align k hal hO hnw, if_pos hex]

/-- C8, counterexample to the unamended claim: with `HEAP_START` equal to
`2 ^ 64 - 2 ^ 62` and a fresh allocator, a `Layout`-legal request of size
`2 ^ 62 + 8` (far larger than the 100 KiB capacity, so it "would exceed
capacity") with alignment `8` wraps in `alloc_end = alloc_start + size`,
passes the guard, returns a non-null address and moves the cursor. -/
theorem claim8_counterexample :
    HEAP_SIZE < 4611686018427387912 ∧
    (alloc ⟨13835058055282163712, 0⟩ 4611686018427387912 8).1 ≠ 0 ∧
    (alloc ⟨13835058055282163712, 0⟩ 4611686018427387912 8).2.offset ≠ 0 := by
  decide

theorem claim8_witness :
    alloc ⟨4096, 102400⟩ 1 1 = (0, ⟨4096, 102400⟩) :=
  claim8 ⟨4096, 102400⟩ 1 1 0 rfl (by decide) (by decide) (by decide)

end MetalPong
